import Mathlib

/-! Shallow embedding of the hwui `Renderer` interface
(`libs/hwui/Renderer.h`): the abstract canvas contract — frame stack,
clip engine, transform tracking, text draw deferral, frame lifecycle and
diagnostics. The interface's concrete members (`setName`, `getName`,
`getXfermode`, the paint `saveLayer` overload and `saveLayerAlpha`) are
translated directly from the source; the pure-virtual members have no body
in the repository, so their semantics is modelled from the specification,
each such definition marked `Modelled from the spec:` in its doc comment.
Float coordinates are embedded as rationals. -/

set_option linter.unusedVariables false

namespace Hwui

/-- Axis-aligned rectangle with rational coordinates, standing in for the
float-based hwui `Rect`. -/
structure Rect where
  left : ℚ
  top : ℚ
  right : ℚ
  bottom : ℚ
deriving DecidableEq

/-- Membership of a point in a (closed) rectangle. -/
def Rect.mem (rc : Rect) (x y : ℚ) : Prop :=
  rc.left ≤ x ∧ x ≤ rc.right ∧ rc.top ≤ y ∧ y ≤ rc.bottom

instance (rc : Rect) (x y : ℚ) : Decidable (rc.mem x y) := by
  unfold Rect.mem
  exact inferInstance

/-- One rectangle contained in another, edge by edge. -/
def Rect.subset (s t : Rect) : Prop :=
  t.left ≤ s.left ∧ t.top ≤ s.top ∧ s.right ≤ t.right ∧ s.bottom ≤ t.bottom

/-- Intersection of two rectangles, as an Intersect clip op computes it. -/
def Rect.inter (s t : Rect) : Rect :=
  ⟨max s.left t.left, max s.top t.top, min s.right t.right, min s.bottom t.bottom⟩

/-- Bounding box of two rectangles, for the bounds-level Union clip op. -/
def Rect.boundsUnion (s t : Rect) : Rect :=
  ⟨min s.left t.left, min s.top t.top, max s.right t.right, max s.bottom t.bottom⟩

/-- Emptiness of a closed rectangle. -/
def Rect.isEmpty (rc : Rect) : Bool :=
  decide (rc.right < rc.left) || decide (rc.bottom < rc.top)

/-- Affine 2D transform: the point `(x, y)` maps to
`(a*x + b*y + e, c*x + d*y + f)`, standing in for the hwui matrix types,
which the interface treats as opaque geometric collaborators. -/
structure Transform where
  a : ℚ
  b : ℚ
  c : ℚ
  d : ℚ
  e : ℚ
  f : ℚ
deriving DecidableEq

/-- The identity transform. -/
def Transform.id : Transform := ⟨1, 0, 0, 1, 0, 0⟩

/-- Image of a point's x coordinate under a transform. -/
def Transform.mapX (T : Transform) (x y : ℚ) : ℚ := T.a * x + T.b * y + T.e

/-- Image of a point's y coordinate under a transform. -/
def Transform.mapY (T : Transform) (x y : ℚ) : ℚ := T.c * x + T.d * y + T.f

/-- Composition of transforms: apply `S` first, then `T`. -/
def Transform.comp (T S : Transform) : Transform :=
  ⟨T.a * S.a + T.b * S.c, T.a * S.b + T.b * S.d,
   T.c * S.a + T.d * S.c, T.c * S.b + T.d * S.d,
   T.a * S.e + T.b * S.f + T.e, T.c * S.e + T.d * S.f + T.f⟩

/-- Translation matrix used by `translate`. -/
def Transform.translation (dx dy : ℚ) : Transform := ⟨1, 0, 0, 1, dx, dy⟩

/-- Scaling matrix used by `scale`. -/
def Transform.scaling (sx sy : ℚ) : Transform := ⟨sx, 0, 0, sy, 0, 0⟩

/-- Shear matrix used by `skew` (the arguments are the shear factors). -/
def Transform.skewing (kx ky : ℚ) : Transform := ⟨1, kx, ky, 1, 0, 0⟩

/-- Modelled from the spec: the rotation matrix `rotate(degrees)` concatenates.
The exact sine and cosine of a degree angle are not rational, and the matrix
arithmetic belongs to the out-of-scope geometric collaborator (§6), so the two
trigonometric coefficient functions are taken as parameters. -/
def Transform.rotation (cosd sind : ℚ → ℚ) (degrees : ℚ) : Transform :=
  ⟨cosd degrees, -(sind degrees), sind degrees, cosd degrees, 0, 0⟩

/-- Modelled from the spec: smallest x coordinate among the images of the four
corners of `rc` under `T` — the left edge of the mapped bounding box
(`min (a*l) (a*r) + min (b*t) (b*b)` equals the minimum over the corners). -/
def Transform.mapRectMinX (T : Transform) (rc : Rect) : ℚ :=
  min (T.a * rc.left) (T.a * rc.right) + min (T.b * rc.top) (T.b * rc.bottom) + T.e

/-- Modelled from the spec: right edge of the mapped bounding box of `rc`. -/
def Transform.mapRectMaxX (T : Transform) (rc : Rect) : ℚ :=
  max (T.a * rc.left) (T.a * rc.right) + max (T.b * rc.top) (T.b * rc.bottom) + T.e

/-- Modelled from the spec: top edge of the mapped bounding box of `rc`. -/
def Transform.mapRectMinY (T : Transform) (rc : Rect) : ℚ :=
  min (T.c * rc.left) (T.c * rc.right) + min (T.d * rc.top) (T.d * rc.bottom) + T.f

/-- Modelled from the spec: bottom edge of the mapped bounding box of `rc`. -/
def Transform.mapRectMaxY (T : Transform) (rc : Rect) : ℚ :=
  max (T.c * rc.left) (T.c * rc.right) + max (T.d * rc.top) (T.d * rc.bottom) + T.f

/-- The simple blend modes of `SkXfermode::Mode` that the embedding
distinguishes. -/
inductive SkXfermode.Mode
  | clear
  | src
  | dst
  | srcOver
  | dstOver
  | srcIn
  | dstIn
  | srcOut
  | dstOut
  | srcATop
  | dstATop
  | plus
  | multiply
  | screen
deriving DecidableEq

/-- An `SkXfermode` object, abstracted to what `Renderer` reads from it:
`asMode` is the simple blend mode `SkXfermode::AsMode` can reduce the object
to, when there is one. -/
structure SkXfermode where
  asMode : Option SkXfermode.Mode
deriving DecidableEq

/-- SkXfermode::AsMode applied to a possibly null xfermode pointer: a null
xfermode stands for source-over (per the `getXfermode` doc comment in
Renderer.h), and a non-null one reduces only when the object is one of the
simple modes. -/
def SkXfermode.AsMode : Option SkXfermode → Option SkXfermode.Mode
  | none => some SkXfermode.Mode.srcOver
  | some x => x.asMode

/-- An `SkPaint`, reduced to the two fields the `Renderer` interface reads
from it: the paint alpha and the (possibly null) xfermode. -/
structure SkPaint where
  alpha : ℤ
  xfermode : Option SkXfermode
deriving DecidableEq

/-- Renderer::getXfermode: safely retrieves the mode from the specified
xfermode; when `AsMode` cannot reduce it, the result falls back to
source-over. -/
def getXfermode (mode : Option SkXfermode) : SkXfermode.Mode :=
  match SkXfermode.AsMode mode with
  | some m => m
  | none => SkXfermode.Mode.srcOver

/-- Layer binding captured by a layered save: alpha and blend mode are fixed
at creation time. -/
structure Layer where
  alpha : ℤ
  mode : SkXfermode.Mode
deriving DecidableEq

/-- One save/restore level: the captured transform, resolved clip and layer
binding. -/
structure Frame where
  transform : Transform
  clip : Rect
  layer : Option Layer
deriving DecidableEq

/-- DrawOpMode from Renderer.h: Immediate, Defer, Flush. -/
inductive DrawOpMode
  | immediate
  | defer
  | flush
deriving DecidableEq

/-- Frame lifecycle: `idle` between frames; `active n` is the Active state
with `n` nested unmatched `interrupt` brackets (`n = 0` is plain Active,
`n > 0` Interrupted). -/
inductive Lifecycle
  | idle
  | active (interrupts : ℕ)
deriving DecidableEq

/-- Result values distinguished by the error-handling design (§7). -/
inductive Result
  | drawn
  | noOp
  | invalidState
  | unsupported
deriving DecidableEq

/-- Modelled from the spec: the observable state behind the pure-virtual
canvas operations. The frame stack is `top` plus the frames below it
(`rest`), so a base frame exists by construction and the depth is
`1 + rest.length ≥ 1`. `deferred` is the queue of recorded text draws and
`renderLog` abstracts the pixel state as the sequence of text operations
actually executed, in execution order. -/
structure RendererState where
  top : Frame
  rest : List Frame
  name : String
  deferred : List String
  renderLog : List String
  lifecycle : Lifecycle
  viewport : Rect
deriving DecidableEq

/-- Renderer::getSaveCount: the current depth of the frame stack. -/
def getSaveCount (st : RendererState) : ℤ := 1 + st.rest.length

/-- Modelled from the spec: `save(flags)` pushes a new frame duplicating the
top frame's transform, clip and layer binding; `flags` is kept in the
signature but the model always duplicates the whole frame. -/
def save (flags : ℤ) (st : RendererState) : RendererState :=
  { st with rest := st.top :: st.rest }

/-- Modelled from the spec: `restore()` pops one frame, restoring the exact
transform, clip and layer binding of the frame below; at the base frame it
refuses and leaves the state unchanged. -/
def restore (st : RendererState) : RendererState :=
  match st.rest with
  | [] => st
  | fr :: frs => { st with top := fr, rest := frs }

/-- Modelled from the spec: `restoreToCount(n)` pops frames until the depth
is `max n 1` (an `n` below 1 clamps to 1); when the depth is already at most
the target it pops nothing. -/
def restoreToCount (n : ℤ) (st : RendererState) : RendererState :=
  restore^[(getSaveCount st - max n 1).toNat] st

/-- Modelled from the spec: transform mutators act on the top frame's matrix
only; this applies `g` to it and touches nothing else. -/
def mutateTopTransform (g : Transform → Transform) (st : RendererState) : RendererState :=
  { st with top := { st.top with transform := g st.top.transform } }

/-- Modelled from the spec: `translate(dx, dy, dz)` concatenates a
translation onto the top frame's matrix (`dz` defaults to 0 in the source;
the 2D model ignores it). -/
def translate (dx dy dz : ℚ) (st : RendererState) : RendererState :=
  mutateTopTransform (fun t => t.comp (Transform.translation dx dy)) st

/-- Modelled from the spec: `rotate(degrees)` concatenates a rotation onto
the top frame's matrix; see `Transform.rotation` for the coefficient
parameters. -/
def rotate (cosd sind : ℚ → ℚ) (degrees : ℚ) (st : RendererState) : RendererState :=
  mutateTopTransform (fun t => t.comp (Transform.rotation cosd sind degrees)) st

/-- Modelled from the spec: `scale(sx, sy)` concatenates a scaling onto the
top frame's matrix. -/
def scale (sx sy : ℚ) (st : RendererState) : RendererState :=
  mutateTopTransform (fun t => t.comp (Transform.scaling sx sy)) st

/-- Modelled from the spec: `skew(sx, sy)` concatenates a shear onto the top
frame's matrix. -/
def skew (sx sy : ℚ) (st : RendererState) : RendererState :=
  mutateTopTransform (fun t => t.comp (Transform.skewing sx sy)) st

/-- Modelled from the spec: `setMatrix(matrix)` replaces the top frame's
matrix. -/
def setMatrix (m : Transform) (st : RendererState) : RendererState :=
  mutateTopTransform (fun _ => m) st

/-- Modelled from the spec: `concatMatrix(matrix)` concatenates onto the top
frame's matrix. -/
def concatMatrix (m : Transform) (st : RendererState) : RendererState :=
  mutateTopTransform (fun t => t.comp m) st

/-- Modelled from the spec: `getMatrix` returns the composed effective
transform as a value. Frames duplicate the full composed transform on
`save`, so the top frame's matrix is the composition across the whole stack;
returning it by value is the out-parameter copy of the source signature. -/
def getMatrix (st : RendererState) : Transform := st.top.transform

/-- The clip ops of `SkRegion::Op` the specification names. -/
inductive RegionOp
  | difference
  | intersect
  | union
  | reverseDifference
  | replace
deriving DecidableEq

/-- Modelled from the spec: combine a rectangle into the current clip at the
level of resolved bounds. Intersect intersects and Replace replaces; Union
takes the bounding box of the union; Difference only removes points, so its
bounds stay the current ones; ReverseDifference keeps points of the new
rectangle only. -/
def applyClipOp (cur rc : Rect) : RegionOp → Rect
  | RegionOp.intersect => cur.inter rc
  | RegionOp.replace => rc
  | RegionOp.union => cur.boundsUnion rc
  | RegionOp.difference => cur
  | RegionOp.reverseDifference => rc

/-- Modelled from the spec: `clipRect` combines the rectangle into the top
frame's clip using `op` and reports whether the resulting clip is
non-empty. -/
def clipRect (l t r b : ℚ) (op : RegionOp) (st : RendererState) : RendererState × Bool :=
  let newClip := applyClipOp st.top.clip ⟨l, t, r, b⟩ op
  ({ st with top := { st.top with clip := newClip } }, !newClip.isEmpty)

/-- Modelled from the spec: `getClipBounds` returns the bounding box of the
resolved clip of the top frame. -/
def getClipBounds (st : RendererState) : Rect := st.top.clip

/-- Modelled from the spec: `quickRejectConservative` maps the query
rectangle through the current transform, takes the bounding box of the
image, and answers true exactly when the query is empty or that box lies
strictly outside the clip bounds — a conservative test that may answer
false for a rejectable rectangle but never rejects one that intersects the
clip. -/
def quickRejectConservative (st : RendererState) (l t r b : ℚ) : Bool :=
  let rc : Rect := ⟨l, t, r, b⟩
  let clip := st.top.clip
  let T := st.top.transform
  rc.isEmpty ||
    decide (T.mapRectMaxX rc < clip.left) || decide (clip.right < T.mapRectMinX rc) ||
    decide (T.mapRectMaxY rc < clip.top) || decide (clip.bottom < T.mapRectMinY rc)

/-- Modelled from the spec: a text draw, reduced to its text and its
DrawOpMode. Immediate executes now; Defer records the operation with no
pixel effect; Flush executes every deferred operation in original call
order and then the flushing call itself. -/
def drawText (text : String) (mode : DrawOpMode) (st : RendererState) : RendererState :=
  match mode with
  | DrawOpMode.immediate => { st with renderLog := st.renderLog ++ [text] }
  | DrawOpMode.defer => { st with deferred := st.deferred ++ [text] }
  | DrawOpMode.flush =>
      { st with renderLog := st.renderLog ++ st.deferred ++ [text], deferred := [] }

/-- Renderer::setName: stores the optional debugging name; a null pointer
(`none`) sets the name to the empty string. -/
def setName (nm : Option String) (st : RendererState) : RendererState :=
  match nm with
  | some s => { st with name := s }
  | none => { st with name := "" }

/-- Renderer::getName: returns the stored name; the return type `String`
reflects that the source's `String8::string()` never yields null. -/
def getName (st : RendererState) : String := st.name

/-- The type of the backend's primitive `saveLayer` (the pure-virtual
overload): it receives the bounds, the resolved alpha, blend mode and
flags, and yields the new state and the returned save count. -/
def SaveLayerPrim : Type :=
  RendererState → ℚ → ℚ → ℚ → ℚ → ℤ → SkXfermode.Mode → ℤ → RendererState × ℤ

/-- Renderer::saveLayer (paint overload): resolves a possibly null paint to
an alpha and blend mode pair — source-over and 255 when the paint is null —
and delegates to the backend's primitive overload. -/
def saveLayer (prim : SaveLayerPrim) (l t r b : ℚ) (paint : Option SkPaint)
    (flags : ℤ) (st : RendererState) : RendererState × ℤ :=
  match paint with
  | none => prim st l t r b 255 SkXfermode.Mode.srcOver flags
  | some p => prim st l t r b p.alpha (getXfermode p.xfermode) flags

/-- Renderer::saveLayerAlpha: `saveLayer` with the blend mode fixed to
source-over. -/
def saveLayerAlpha (prim : SaveLayerPrim) (l t r b : ℚ) (alpha : ℤ)
    (flags : ℤ) (st : RendererState) : RendererState × ℤ :=
  prim st l t r b alpha SkXfermode.Mode.srcOver flags

/-- Modelled from the spec: the base frame `prepare`/`prepareDirty`
establish — identity transform, the given clip, no layer. -/
def baseFrame (clip : Rect) : Frame := ⟨Transform.id, clip, none⟩

/-- Whether canvas calls are accepted: in the Active state, including inside
an Interrupted bracket. -/
def Lifecycle.canDraw : Lifecycle → Bool
  | Lifecycle.idle => false
  | Lifecycle.active _ => true

/-- Modelled from the spec: the calls of the step machine used to state the
contract-violation property — lifecycle transitions plus the canvas calls
the model gives semantics to. -/
inductive Op
  | prepare (isOpaque : Bool)
  | prepareDirty (l t r b : ℚ) (isOpaque : Bool)
  | finish
  | interrupt
  | resume
  | save (flags : ℤ)
  | restore
  | restoreToCount (n : ℤ)
  | clipRect (l t r b : ℚ) (rop : RegionOp)
  | translate (dx dy dz : ℚ)
  | setMatrix (m : Transform)
  | drawText (text : String) (mode : DrawOpMode)

/-- Modelled from the spec (§4.5, §7): one call of the renderer. A call
either takes effect, or is a contract violation rejected with
`invalidState` — a canvas call outside a frame, `restore` at the base
frame, an unmatched `resume`, a second `prepare`, or a `finish` while idle
or inside an Interrupted bracket. -/
def step (st : RendererState) : Op → RendererState × Result
  | Op.prepare _ =>
      match st.lifecycle with
      | Lifecycle.idle =>
          ({ st with
              top := baseFrame st.viewport,
              rest := [],
              deferred := [],
              lifecycle := Lifecycle.active 0 }, Result.drawn)
      | Lifecycle.active _ => (st, Result.invalidState)
  | Op.prepareDirty l t r b _ =>
      match st.lifecycle with
      | Lifecycle.idle =>
          ({ st with
              top := baseFrame ⟨l, t, r, b⟩,
              rest := [],
              deferred := [],
              lifecycle := Lifecycle.active 0 }, Result.drawn)
      | Lifecycle.active _ => (st, Result.invalidState)
  | Op.finish =>
      match st.lifecycle with
      | Lifecycle.active 0 => ({ st with lifecycle := Lifecycle.idle }, Result.drawn)
      | _ => (st, Result.invalidState)
  | Op.interrupt =>
      match st.lifecycle with
      | Lifecycle.active n =>
          ({ st with lifecycle := Lifecycle.active (n + 1) }, Result.drawn)
      | Lifecycle.idle => (st, Result.invalidState)
  | Op.resume =>
      match st.lifecycle with
      | Lifecycle.active (n + 1) =>
          ({ st with lifecycle := Lifecycle.active n }, Result.drawn)
      | _ => (st, Result.invalidState)
  | Op.save f =>
      if st.lifecycle.canDraw then (save f st, Result.drawn) else (st, Result.invalidState)
  | Op.restore =>
      if st.lifecycle.canDraw then
        match st.rest with
        | [] => (st, Result.invalidState)
        | _ :: _ => (restore st, Result.drawn)
      else (st, Result.invalidState)
  | Op.restoreToCount n =>
      if st.lifecycle.canDraw then (restoreToCount n st, Result.drawn)
      else (st, Result.invalidState)
  | Op.clipRect l t r b rop =>
      if st.lifecycle.canDraw then ((clipRect l t r b rop st).1, Result.drawn)
      else (st, Result.invalidState)
  | Op.translate dx dy dz =>
      if st.lifecycle.canDraw then (translate dx dy dz st, Result.drawn)
      else (st, Result.invalidState)
  | Op.setMatrix m =>
      if st.lifecycle.canDraw then (setMatrix m st, Result.drawn)
      else (st, Result.invalidState)
  | Op.drawText text mode =>
      if st.lifecycle.canDraw then (drawText text mode st, Result.drawn)
      else (st, Result.invalidState)

/-- A save or a restore call, for stating balanced-sequence properties. -/
inductive SROp
  | save (flags : ℤ)
  | restore

/-- Run a sequence of save/restore calls left to right. -/
def runSR : List SROp → RendererState → RendererState
  | [], st => st
  | SROp.save f :: ops, st => runSR ops (save f st)
  | SROp.restore :: ops, st => runSR ops (restore st)

/-- Balanced sequences of save/restore calls: every save is matched by
exactly one later restore (the Dyck words over save and restore). -/
inductive Balanced : List SROp → Prop
  | nil : Balanced []
  | node (f : ℤ) {inner rest : List SROp} : Balanced inner → Balanced rest →
      Balanced (SROp.save f :: inner ++ SROp.restore :: rest)

/-- A concrete state: the base frame over a 100 by 100 surface, mid-frame
(Active), empty name and queues. -/
def initState : RendererState :=
  { top := baseFrame ⟨0, 0, 100, 100⟩,
    rest := [],
    name := "",
    deferred := [],
    renderLog := [],
    lifecycle := Lifecycle.active 0,
    viewport := ⟨0, 0, 100, 100⟩ }

/-! Helper lemmas shared by the claim theorems. -/

/-- A product `a * x` with `x` between `lo` and `hi` lies between the
products at the endpoints, whatever the sign of `a`. -/
theorem mul_between {a lo hi x : ℚ} (h1 : lo ≤ x) (h2 : x ≤ hi) :
    min (a * lo) (a * hi) ≤ a * x ∧ a * x ≤ max (a * lo) (a * hi) := by
  rcases le_total 0 a with ha | ha
  · exact ⟨le_trans (min_le_left _ _) (mul_le_mul_of_nonneg_left h1 ha),
      le_trans (mul_le_mul_of_nonneg_left h2 ha) (le_max_right _ _)⟩
  · exact ⟨le_trans (min_le_right _ _) (mul_le_mul_of_nonpos_left h2 ha),
      le_trans (mul_le_mul_of_nonpos_left h1 ha) (le_max_left _ _)⟩

/-- The image of any point of a rectangle lies inside the mapped bounding
box computed from the corners. -/
theorem mapPoint_in_mapRect (T : Transform) (rc : Rect) {x y : ℚ}
    (hmem : rc.mem x y) :
    T.mapRectMinX rc ≤ T.mapX x y ∧ T.mapX x y ≤ T.mapRectMaxX rc ∧
      T.mapRectMinY rc ≤ T.mapY x y ∧ T.mapY x y ≤ T.mapRectMaxY rc := by
  obtain ⟨hl, hr, ht, hb⟩ := hmem
  have hax := mul_between (a := T.a) hl hr
  have hby := mul_between (a := T.b) ht hb
  have hcx := mul_between (a := T.c) hl hr
  have hdy := mul_between (a := T.d) ht hb
  refine ⟨?_, ?_, ?_, ?_⟩ <;>
    simp only [Transform.mapX, Transform.mapY, Transform.mapRectMinX,
      Transform.mapRectMaxX, Transform.mapRectMinY, Transform.mapRectMaxY] <;>
    linarith [hax.1, hax.2, hby.1, hby.2, hcx.1, hcx.2, hdy.1, hdy.2]

/-- Membership is monotone along edge-by-edge containment. -/
theorem Rect.mem_of_subset {s t : Rect} {x y : ℚ} (hsub : s.subset t)
    (hmem : s.mem x y) : t.mem x y := by
  obtain ⟨h1, h2, h3, h4⟩ := hsub
  obtain ⟨m1, m2, m3, m4⟩ := hmem
  exact ⟨le_trans h1 m1, le_trans m2 h3, le_trans h2 m3, le_trans m4 h4⟩

/-- Running a concatenation of save/restore sequences runs them in order. -/
theorem runSR_append (xs ys : List SROp) (st : RendererState) :
    runSR (xs ++ ys) st = runSR ys (runSR xs st) := by
  induction xs generalizing st with
  | nil => rfl
  | cons op ops ih => cases op <;> simp only [List.cons_append, runSR] <;> exact ih _

/-- The depth is `1` plus the number of frames below the top. -/
theorem getSaveCount_eq (st : RendererState) :
    getSaveCount st = 1 + st.rest.length := rfl

/-- Every state has a base frame, so the depth is at least one. -/
theorem one_le_getSaveCount (st : RendererState) : 1 ≤ getSaveCount st := by
  rw [getSaveCount_eq]
  omega

/-- `save` deepens the stack by one. -/
theorem getSaveCount_save (f : ℤ) (st : RendererState) :
    getSaveCount (save f st) = getSaveCount st + 1 := by
  simp [getSaveCount, save]
  omega

/-- `restore` shallows the stack by one, stopping at the base frame. -/
theorem getSaveCount_restore (st : RendererState) :
    getSaveCount (restore st) = max 1 (getSaveCount st - 1) := by
  cases h : st.rest with
  | nil => simp [restore, h, getSaveCount]
  | cons fr frs => simp [restore, h, getSaveCount]; omega

/-- Depth after iterating `restore`: it decreases one frame per call and
stops at the base frame. -/
theorem getSaveCount_iterate_restore (k : ℕ) (st : RendererState) :
    getSaveCount (restore^[k] st) = max 1 (getSaveCount st - k) := by
  induction k generalizing st with
  | zero =>
      have := one_le_getSaveCount st
      simp
      omega
  | succ m ih =>
      rw [Function.iterate_succ_apply, ih, getSaveCount_restore]
      have := one_le_getSaveCount st
      omega

/-- A balanced save/restore sequence returns the depth to its initial
value. -/
theorem balanced_runSR_getSaveCount {ops : List SROp} (hb : Balanced ops) :
    ∀ st : RendererState, getSaveCount (runSR ops st) = getSaveCount st := by
  induction hb with
  | nil => intro st; rfl
  | node f hinner hrest ihinner ihrest =>
      intro st
      rw [show SROp.save f :: _ ++ SROp.restore :: _ =
        SROp.save f :: (_ ++ SROp.restore :: _) from rfl]
      simp only [runSR]
      rw [runSR_append, runSR]
      rw [ihrest, getSaveCount_restore, ihinner, getSaveCount_save]
      have := one_le_getSaveCount st
      omega

/-! The claim theorems. -/

/-- C1: whenever `quickRejectConservative` answers true for a rectangle, the
exact geometric intersection of the rectangle mapped through the current
composed transform with the resolved clip is empty — false negatives are
allowed, false positives are forbidden. -/
theorem quickRejectConservative_no_false_positive
    (st : RendererState) (l t r b x y : ℚ)
    (hq : quickRejectConservative st l t r b = true)
    (hmem : Rect.mem ⟨l, t, r, b⟩ x y) :
    ¬ Rect.mem (getClipBounds st)
      ((getMatrix st).mapX x y) ((getMatrix st).mapY x y) := by
  intro hclip
  have hmap := mapPoint_in_mapRect st.top.transform ⟨l, t, r, b⟩ hmem
  simp only [getMatrix, getClipBounds] at hclip
  obtain ⟨q1, q2, q3, q4⟩ := hmap
  simp only [Rect.mem] at hclip hmem
  obtain ⟨c1, c2, c3, c4⟩ := hclip
  obtain ⟨ml, mr, mt, mb⟩ := hmem
  simp only [quickRejectConservative, Rect.isEmpty, Bool.or_eq_true,
    decide_eq_true_eq] at hq
  rcases hq with ((((he | he) | he) | he) | he) | he <;> linarith

/-- Witness for C1: a rectangle entirely to the right of the 100 by 100
clip of `initState` is rejected, and indeed none of its points lands in the
clip — checked at the point (250, 250). -/
theorem quickRejectConservative_no_false_positive_at :
    quickRejectConservative initState 200 200 300 300 = true ∧
    Rect.mem ⟨200, 200, 300, 300⟩ 250 250 ∧
    ¬ Rect.mem (getClipBounds initState)
      ((getMatrix initState).mapX 250 250) ((getMatrix initState).mapY 250 250) :=
  ⟨by norm_num [quickRejectConservative, Rect.isEmpty, initState, baseFrame,
      Transform.id, Transform.mapRectMinX, Transform.mapRectMaxX,
      Transform.mapRectMinY, Transform.mapRectMaxY],
   by norm_num [Rect.mem],
   quickRejectConservative_no_false_positive initState 200 200 300 300 250 250
     (by norm_num [quickRejectConservative, Rect.isEmpty, initState, baseFrame,
        Transform.id, Transform.mapRectMinX, Transform.mapRectMaxX,
        Transform.mapRectMinY, Transform.mapRectMaxY])
     (by norm_num [Rect.mem])⟩

/-- C2: `restore()` at depth 1 is a no-op on the state, and in general every
call the step machine rejects with `invalidState` leaves the whole renderer
state — frame stack and clip region included — exactly as it was. -/
theorem restore_rejected_noop :
    (∀ st : RendererState, getSaveCount st = 1 → restore st = st) ∧
    (∀ (st : RendererState) (op : Op),
      (step st op).2 = Result.invalidState → (step st op).1 = st) := by
  constructor
  · intro st h
    rw [getSaveCount_eq] at h
    have hnil : st.rest = [] := List.length_eq_zero.mp (by omega)
    simp [restore, hnil]
  · intro st op h
    cases op <;> simp only [step] at h ⊢ <;> (repeat' split at h) <;> simp_all

/-- Witness for C2: at `initState` (depth 1, Active) a `restore` call is
rejected with `invalidState` and the state is untouched. -/
theorem restore_rejected_noop_at :
    getSaveCount initState = 1 ∧ restore initState = initState ∧
    (step initState Op.restore).2 = Result.invalidState ∧
    (step initState Op.restore).1 = initState :=
  ⟨rfl, restore_rejected_noop.1 initState rfl, rfl,
    restore_rejected_noop.2 initState Op.restore rfl⟩

/-- C3: after `clipRect(rect, Intersect)` the clip bounds are contained in
the pre-call clip bounds, both edge by edge and as point sets — an
Intersect clip can only shrink. -/
theorem clipRect_intersect_shrinks (st : RendererState) (l t r b : ℚ) :
    Rect.subset (getClipBounds (clipRect l t r b RegionOp.intersect st).1)
        (getClipBounds st) ∧
    ∀ x y : ℚ,
      Rect.mem (getClipBounds (clipRect l t r b RegionOp.intersect st).1) x y →
        Rect.mem (getClipBounds st) x y := by
  have hsub : Rect.subset (getClipBounds (clipRect l t r b RegionOp.intersect st).1)
      (getClipBounds st) := by
    simp only [getClipBounds, clipRect, applyClipOp, Rect.inter, Rect.subset]
    exact ⟨le_max_left _ _, le_max_left _ _, min_le_left _ _, min_le_left _ _⟩
  exact ⟨hsub, fun x y hm => Rect.mem_of_subset hsub hm⟩

/-- C4: a balanced sequence of save/restore calls leaves `getSaveCount`
exactly where it started, and the depth is always at least 1. -/
theorem balanced_save_restore_count :
    (∀ ops : List SROp, Balanced ops →
      ∀ st : RendererState, getSaveCount (runSR ops st) = getSaveCount st) ∧
    (∀ st : RendererState, 1 ≤ getSaveCount st) :=
  ⟨fun _ hb => balanced_runSR_getSaveCount hb, one_le_getSaveCount⟩

/-- Witness for C4: the balanced sequence save-then-restore runs `initState`
back to its original depth. -/
theorem balanced_save_restore_count_at :
    Balanced [SROp.save 0, SROp.restore] ∧
    getSaveCount (runSR [SROp.save 0, SROp.restore] initState) =
      getSaveCount initState ∧
    1 ≤ getSaveCount initState :=
  have hb : Balanced [SROp.save 0, SROp.restore] :=
    Balanced.node 0 Balanced.nil Balanced.nil
  ⟨hb, balanced_save_restore_count.1 _ hb initState,
    balanced_save_restore_count.2 initState⟩

/-- C5: `restoreToCount(n)` behaves exactly like `restoreToCount(max n 1)`
(so every `n < 1` behaves like `n = 1`), pops frames until the depth is the
clamped target (never past the current depth), and is a no-op whenever `n`
is at least the current depth. -/
theorem restoreToCount_spec (st : RendererState) (n : ℤ) :
    restoreToCount n st = restoreToCount (max n 1) st ∧
    getSaveCount (restoreToCount n st) = min (getSaveCount st) (max n 1) ∧
    ∀ k : ℕ, restoreToCount (getSaveCount st + k) st = st := by
  refine ⟨?_, ?_, ?_⟩
  · simp only [restoreToCount]
    rw [max_eq_left (le_max_right n 1)]
  · simp only [restoreToCount, getSaveCount_iterate_restore]
    have h1 := one_le_getSaveCount st
    omega
  · intro k
    have hz : (getSaveCount st - max (getSaveCount st + k) 1).toNat = 0 := by
      have := one_le_getSaveCount st
      omega
    simp [restoreToCount, hz]

/-- C6: `saveLayerAlpha(l, t, r, b, alpha, flags)` returns the same result
and produces the same state as the primitive
`saveLayer(l, t, r, b, alpha, srcOver, flags)`, whatever backend primitive
implements the layered save. -/
theorem saveLayerAlpha_is_srcOver_saveLayer (prim : SaveLayerPrim)
    (l t r b : ℚ) (alpha flags : ℤ) (st : RendererState) :
    saveLayerAlpha prim l t r b alpha flags st =
      prim st l t r b alpha SkXfermode.Mode.srcOver flags := rfl

/-- C7: a Defer text draw records the operation and changes no pixels; a
later Flush executes every previously deferred operation in original call
order and then the flushing call itself — in particular Defer "A" then
Flush "B" appends exactly "A" then "B" to the render log. -/
theorem drawText_defer_flush (st : RendererState) (a b : String) :
    (drawText a DrawOpMode.defer st).renderLog = st.renderLog ∧
    (drawText a DrawOpMode.defer st).deferred = st.deferred ++ [a] ∧
    (drawText b DrawOpMode.flush st).renderLog =
      st.renderLog ++ st.deferred ++ [b] ∧
    (drawText b DrawOpMode.flush st).deferred = [] ∧
    (drawText b DrawOpMode.flush (drawText a DrawOpMode.defer st)).renderLog =
      st.renderLog ++ st.deferred ++ [a, b] :=
  ⟨rfl, rfl, rfl, rfl, by simp [drawText]⟩

/-- C8: each transform mutator — translate, rotate, scale, skew, setMatrix,
concatMatrix — changes only the top frame's matrix, leaving every frame
below and the top frame's clip and layer binding untouched; `getMatrix`
returns the composed effective transform as a value (frames duplicate the
composed transform on save, so it survives save/restore), and each mutator
is reflected in it by composition. -/
theorem transform_mutators_top_only (st : RendererState)
    (dx dy dz sx sy kx ky degrees : ℚ) (cosd sind : ℚ → ℚ) (m : Transform)
    (flags : ℤ) :
    ((translate dx dy dz st).rest = st.rest ∧
      (translate dx dy dz st).top.clip = st.top.clip ∧
      (translate dx dy dz st).top.layer = st.top.layer ∧
      getMatrix (translate dx dy dz st) =
        (getMatrix st).comp (Transform.translation dx dy)) ∧
    ((rotate cosd sind degrees st).rest = st.rest ∧
      (rotate cosd sind degrees st).top.clip = st.top.clip ∧
      (rotate cosd sind degrees st).top.layer = st.top.layer ∧
      getMatrix (rotate cosd sind degrees st) =
        (getMatrix st).comp (Transform.rotation cosd sind degrees)) ∧
    ((scale sx sy st).rest = st.rest ∧
      (scale sx sy st).top.clip = st.top.clip ∧
      (scale sx sy st).top.layer = st.top.layer ∧
      getMatrix (scale sx sy st) = (getMatrix st).comp (Transform.scaling sx sy)) ∧
    ((skew kx ky st).rest = st.rest ∧
      (skew kx ky st).top.clip = st.top.clip ∧
      (skew kx ky st).top.layer = st.top.layer ∧
      getMatrix (skew kx ky st) = (getMatrix st).comp (Transform.skewing kx ky)) ∧
    ((setMatrix m st).rest = st.rest ∧
      (setMatrix m st).top.clip = st.top.clip ∧
      (setMatrix m st).top.layer = st.top.layer ∧
      getMatrix (setMatrix m st) = m) ∧
    ((concatMatrix m st).rest = st.rest ∧
      (concatMatrix m st).top.clip = st.top.clip ∧
      (concatMatrix m st).top.layer = st.top.layer ∧
      getMatrix (concatMatrix m st) = (getMatrix st).comp m) ∧
    getMatrix (save flags st) = getMatrix st ∧
    getMatrix (restore (save flags st)) = getMatrix st :=
  ⟨⟨rfl, rfl, rfl, rfl⟩, ⟨rfl, rfl, rfl, rfl⟩, ⟨rfl, rfl, rfl, rfl⟩,
    ⟨rfl, rfl, rfl, rfl⟩, ⟨rfl, rfl, rfl, rfl⟩, ⟨rfl, rfl, rfl, rfl⟩, rfl, rfl⟩

/-- C9: `getName` always returns a valid string — empty with no prior
`setName`, empty after `setName` of a null pointer, and the stored text
otherwise — and `setName` touches nothing of the drawing state. -/
theorem getName_total_default (st : RendererState) (s : String)
    (nm : Option String) :
    getName initState = "" ∧
    getName (setName none st) = "" ∧
    getName (setName (some s) st) = s ∧
    (setName nm st).top = st.top ∧
    (setName nm st).rest = st.rest ∧
    (setName nm st).deferred = st.deferred ∧
    (setName nm st).renderLog = st.renderLog ∧
    (setName nm st).lifecycle = st.lifecycle := by
  cases nm <;> exact ⟨rfl, rfl, rfl, rfl, rfl, rfl, rfl, rfl⟩

/-- C10: the paint overload of `saveLayer` always resolves an alpha and
blend mode pair: a null paint yields alpha 255 with source-over, a paint
yields its alpha with `getXfermode` of its xfermode, and `getXfermode`
falls back to source-over both for a null xfermode and for one that cannot
be reduced to a simple mode. -/
theorem saveLayer_paint_total (prim : SaveLayerPrim) (l t r b : ℚ)
    (flags : ℤ) (st : RendererState) (p : SkPaint) (x : SkXfermode) :
    saveLayer prim l t r b none flags st =
      prim st l t r b 255 SkXfermode.Mode.srcOver flags ∧
    saveLayer prim l t r b (some p) flags st =
      prim st l t r b p.alpha (getXfermode p.xfermode) flags ∧
    getXfermode none = SkXfermode.Mode.srcOver ∧
    getXfermode (some x) = x.asMode.getD SkXfermode.Mode.srcOver ∧
    ∀ po : Option SkPaint, ∃ (alpha : ℤ) (mode : SkXfermode.Mode),
      saveLayer prim l t r b po flags st = prim st l t r b alpha mode flags := by
  refine ⟨rfl, rfl, rfl, ?_, ?_⟩
  · cases h : x.asMode <;> simp [getXfermode, SkXfermode.AsMode, h]
  · intro po
    cases po with
    | none => exact ⟨255, SkXfermode.Mode.srcOver, rfl⟩
    | some q => exact ⟨q.alpha, getXfermode q.xfermode, rfl⟩

end Hwui
